import Mathlib

/-!
Shallow embedding of the image-filter core of `tarea1_pdi.py` and proofs of
the specification's claims about it.

Modelling conventions:
* A PIL RGB image is modelled by `Image`: a width, a height and a pixel
  function; only the values at coordinates `0 ≤ x < width`, `0 ≤ y < height`
  are meaningful (PIL raises on out-of-range access, so no filter ever reads
  or writes outside that domain).
* A pixel is a triple of natural numbers.  Images decoded by PIL always have
  channel values in `[0, 255]`; claims that need this carry an `Image.InRange`
  hypothesis.
* Writing a pixel with PIL (`pixels[x, y] = (r, g, b)` through
  `PixelAccess.__setitem__`) clamps every channel to `[0, 255]`: Pillow's
  `getink` applies `CLIP8(v) = (v <= 0 ? 0 : v >= 255 ? 255 : v)` to each
  component before storing it.  This store-side clamp is modelled by `clip8`
  and is applied at every pixel store, exactly where the Python code calls
  the PIL setter.
* Python's float expression `0.3 * r + 0.7 * g + 0.1 * b` is evaluated by
  the interpreter in IEEE-754 binary64 arithmetic, left-associated, each
  operation correctly rounded (round to nearest, ties to even).  This is
  modelled bit-exactly: doubles are non-negative dyadic rationals
  `m / 2^k`, the literals 0.3, 0.7, 0.1 are the exact doubles they denote,
  and each multiplication/addition is an exact operation followed by
  `round64`, rounding the significand to 53 bits with ties to even
  (overflow and subnormals are out of range for 8-bit channel arithmetic
  and are not modelled).  `int(...)` truncates toward zero, which on the
  non-negative result is the floor.  The specification's idealized
  exact-rational reading of the same expression is kept separately as
  `specWeightedGray` for comparison; the two differ (e.g. at (0,3,9)).
-/

namespace Tarea1

/-- One RGB sample: each channel a natural number (8-bit in a PIL buffer). -/
@[ext]
structure Pixel where
  r : Nat
  g : Nat
  b : Nat
deriving DecidableEq, Repr

/-- A decoded bitmap: dimensions plus the pixel grid, indexed as `pix x y`
with `0 ≤ x < width` and `0 ≤ y < height` (only those entries are
meaningful). -/
structure Image where
  width : Nat
  height : Nat
  pix : Nat → Nat → Pixel

/-- A pixel's channels all lie in `[0, 255]`. -/
def Pixel.InRange (p : Pixel) : Prop := p.r ≤ 255 ∧ p.g ≤ 255 ∧ p.b ≤ 255

instance (p : Pixel) : Decidable p.InRange := by unfold Pixel.InRange; infer_instance

/-- Every pixel of the image's domain has channels in `[0, 255]` — the
invariant of every PIL-decoded RGB image. -/
def Image.InRange (I : Image) : Prop :=
  ∀ x, x < I.width → ∀ y, y < I.height → (I.pix x y).InRange

instance (I : Image) : Decidable I.InRange := by unfold Image.InRange; infer_instance

/-- PIL image equality (`tobytes` comparison): same dimensions and the same
pixels over the whole domain. -/
def Image.eqOn (a b : Image) : Prop :=
  a.width = b.width ∧ a.height = b.height ∧
    ∀ x, x < a.width → ∀ y, y < a.height → a.pix x y = b.pix x y

instance (a b : Image) : Decidable (a.eqOn b) := by unfold Image.eqOn; infer_instance

/-- Pillow's `CLIP8` applied by `PixelAccess.__setitem__` (via `getink`) to
each channel before it is stored in the 8-bit buffer:
`v <= 0 ? 0 : v >= 255 ? 255 : v`. -/
def clip8 (v : Int) : Nat := (max 0 (min 255 v)).toNat

/-- Bit length with structural fuel: `bitLenAux fuel n` is the number of
binary digits of `n` whenever `fuel` halvings suffice to reach 0. -/
def bitLenAux : Nat → Nat → Nat
  | 0, _ => 0
  | fuel + 1, n => if n = 0 then 0 else bitLenAux fuel (n / 2) + 1

/-- Number of binary digits of `n` (0 for 0); `n` itself always suffices as
fuel, since a positive number has at most `n` binary digits. -/
def bitLen (n : Nat) : Nat := bitLenAux n n

/-- Round the non-negative dyadic rational `m / 2^k` to the nearest IEEE-754
binary64 value (53 significand bits, round to nearest, ties to even),
returned again as a dyadic pair (numerator, binary exponent of the
denominator).  Exponent overflow and subnormals are not modelled: every
value arising from 8-bit channel arithmetic lies well inside the normal
range, where this rounding is exactly the hardware's. -/
def round64 (m k : Nat) : Nat × Nat :=
  let L := bitLen m
  if L ≤ 53 then (m, k)
  else
    let d := L - 53
    let q := m / 2 ^ d
    let rem := m % 2 ^ d
    let half := 2 ^ (d - 1)
    let q2 := if rem < half then q
      else if half < rem then q + 1
      else if q % 2 = 0 then q else q + 1
    if d ≤ k then (q2, k - d) else (q2 * 2 ^ (d - k), 0)

/-- IEEE-754 binary64 multiplication of non-negative dyadics: the exact
product, then one rounding. -/
def mul64 (a b : Nat × Nat) : Nat × Nat := round64 (a.1 * b.1) (a.2 + b.2)

/-- IEEE-754 binary64 addition of non-negative dyadics: the exact sum on a
common denominator, then one rounding. -/
def add64 (a b : Nat × Nat) : Nat × Nat :=
  let k := max a.2 b.2
  round64 (a.1 * 2 ^ (k - a.2) + b.1 * 2 ^ (k - b.2)) k

/-- The binary64 double denoted by the Python literal `0.3`:
5404319552844595 / 2^54 ≈ 0.29999999999999998889776975374843. -/
def float03 : Nat × Nat := (5404319552844595, 54)

/-- The binary64 double denoted by the Python literal `0.7`:
3152519739159347 / 2^52 ≈ 0.69999999999999995559107901499374. -/
def float07 : Nat × Nat := (3152519739159347, 52)

/-- The binary64 double denoted by the Python literal `0.1`:
3602879701896397 / 2^55 ≈ 0.10000000000000000555111512312578. -/
def float01 : Nat × Nat := (3602879701896397, 55)

/-- The Python expression `int(0.3 * r + 0.7 * g + 0.1 * b)` of
`grayscale_filter`'s weighted branch, evaluated exactly as the interpreter
does: in IEEE-754 binary64 arithmetic, left-associated
`((0.3*r) + (0.7*g)) + (0.1*b)`, each operation correctly rounded, the
channel integers (at most 255, hence far below 2^53) converted exactly;
`int` then truncates toward zero, which is the floor of the non-negative
result. -/
def weightedGray (r g b : Nat) : Nat :=
  let s := add64 (add64 (mul64 float03 (r, 0)) (mul64 float07 (g, 0)))
    (mul64 float01 (b, 0))
  s.1 / 2 ^ s.2

/-- Modelled from the spec: the specification's idealized weighted formula
`floor(0.3·r + 0.7·g + 0.1·b)` read in exact rational arithmetic (truncation
toward zero equals the floor on the non-negative value).  Kept only for
comparison with the program's float computation `weightedGray`, from which
it differs — the floats carry rounding errors, e.g. at (0,3,9). -/
def specWeightedGray (r g b : Nat) : Nat :=
  (⌊0.3 * (r : ℚ) + 0.7 * (g : ℚ) + 0.1 * (b : ℚ)⌋).toNat

/-- `mosaic_filter(original_image, block_size)` (lines 10–45).

The Python code iterates over block origins `x0 ∈ range(0, width, bs)`,
`y0 ∈ range(0, height, bs)`; for each block it sums the three channels and a
pixel count over `bx ∈ range(x0, min(x0+bs, width))`,
`by ∈ range(y0, min(y0+bs, height))` (reading the untouched original),
floor-divides, and writes the single averaged triple to every pixel of the
block.  The blocks are disjoint and each domain pixel `(x, y)` belongs to
exactly the block with origin `(bs*(x/bs), bs*(y/bs))`, which the loop does
visit, so the buffer write is rendered per destination pixel: each output
pixel gets the average of its containing block.  The three channel sums and
the count, accumulated together in the single Python loop, are rendered as
four folds over the same iteration list. -/
def mosaic_filter (original_image : Image) (block_size : Nat) : Image :=
  { width := original_image.width
    height := original_image.height
    pix := fun x y =>
      let x0 := block_size * (x / block_size)
      let y0 := block_size * (y / block_size)
      let xs := List.range' x0 (min (x0 + block_size) original_image.width - x0)
      let ys := List.range' y0 (min (y0 + block_size) original_image.height - y0)
      let sum_r := ys.foldl (fun s v => xs.foldl (fun t u => t + (original_image.pix u v).r) s) 0
      let sum_g := ys.foldl (fun s v => xs.foldl (fun t u => t + (original_image.pix u v).g) s) 0
      let sum_b := ys.foldl (fun s v => xs.foldl (fun t u => t + (original_image.pix u v).b) s) 0
      let count := ys.foldl (fun s _ => xs.foldl (fun t _ => t + 1) s) 0
      { r := clip8 ((sum_r / count : Nat) : Int)
        g := clip8 ((sum_g / count : Nat) : Int)
        b := clip8 ((sum_b / count : Nat) : Int) } }

/-- `grayscale_filter(original_image, method)` (lines 48–77): per pixel,
`gray = (r + g + b) // 3` when `method == "average"`, otherwise
`gray = int(0.3*r + 0.7*g + 0.1*b)`; stores `(gray, gray, gray)` through the
PIL setter (`clip8`). -/
def grayscale_filter (original_image : Image) (method : String) : Image :=
  { width := original_image.width
    height := original_image.height
    pix := fun x y =>
      let p := original_image.pix x y
      let gray_value : Nat :=
        if method = "average" then (p.r + p.g + p.b) / 3
        else weightedGray p.r p.g p.b
      { r := clip8 (gray_value : Int)
        g := clip8 (gray_value : Int)
        b := clip8 (gray_value : Int) } }

/-- `high_contrast_filter(original_image, method, threshold)` (lines 80–108):
first `grayscale_filter(original_image, method)`, then each pixel whose (red
= gray) value satisfies `r < threshold` becomes `(0,0,0)`, otherwise
`(255,255,255)` (both stores are already in `[0,255]`, so the PIL clamp is
the identity on them). -/
def high_contrast_filter (original_image : Image) (method : String) (threshold : Nat) : Image :=
  let gray_image := grayscale_filter original_image method
  { width := gray_image.width
    height := gray_image.height
    pix := fun x y =>
      let p := gray_image.pix x y
      if p.r < threshold then { r := 0, g := 0, b := 0 }
      else { r := 255, g := 255, b := 255 } }

/-- `negative_filter(original_image)` (lines 111–125): per pixel,
`(255 - r, 255 - g, 255 - b)` computed in Python integers, stored through the
PIL setter (`clip8`). -/
def negative_filter (original_image : Image) : Image :=
  { width := original_image.width
    height := original_image.height
    pix := fun x y =>
      let p := original_image.pix x y
      { r := clip8 (255 - (p.r : Int))
        g := clip8 (255 - (p.g : Int))
        b := clip8 (255 - (p.b : Int)) } }

/-- `rgb_filter_channel_only(original_image, channel)` (lines 128–158):
keeps only the named channel, zeroing the other two; any unrecognized
channel value falls through to the defensive `else` that stores the pixel
unchanged. -/
def rgb_filter_channel_only (original_image : Image) (channel : String) : Image :=
  { width := original_image.width
    height := original_image.height
    pix := fun x y =>
      let p := original_image.pix x y
      let q : Pixel :=
        if channel = "red" then { r := p.r, g := 0, b := 0 }
        else if channel = "green" then { r := 0, g := p.g, b := 0 }
        else if channel = "blue" then { r := 0, g := 0, b := p.b }
        else { r := p.r, g := p.g, b := p.b }
      { r := clip8 (q.r : Int), g := clip8 (q.g : Int), b := clip8 (q.b : Int) } }

/-- `brightness_filter(original_image, brightness_delta)` (lines 161–190):
per channel, `new = max(0, min(255, value + delta))` in Python integers,
then stored through the PIL setter (`clip8`, a no-op on the already clamped
value). -/
def brightness_filter (original_image : Image) (brightness_delta : Int) : Image :=
  { width := original_image.width
    height := original_image.height
    pix := fun x y =>
      let p := original_image.pix x y
      let new_r := max 0 (min 255 ((p.r : Int) + brightness_delta))
      let new_g := max 0 (min 255 ((p.g : Int) + brightness_delta))
      let new_b := max 0 (min 255 ((p.b : Int) + brightness_delta))
      { r := clip8 new_r, g := clip8 new_g, b := clip8 new_b } }

/-- The 2×2 test image of the spec's concrete mosaic scenario: pixels
`(10,20,30)`, `(200,100,50)`, `(0,0,0)`, `(255,255,255)` in row-major
order. -/
def testImage2x2 : Image :=
  { width := 2
    height := 2
    pix := fun x y =>
      if x = 0 ∧ y = 0 then { r := 10, g := 20, b := 30 }
      else if x = 1 ∧ y = 0 then { r := 200, g := 100, b := 50 }
      else if x = 0 ∧ y = 1 then { r := 0, g := 0, b := 0 }
      else { r := 255, g := 255, b := 255 } }

/-- A 1×1 all-white image, the overflow input for the weighted grayscale. -/
def whiteImage : Image :=
  { width := 1, height := 1, pix := fun _ _ => { r := 255, g := 255, b := 255 } }

/-- A 1×1 image holding the spec's grayscale example pixel `(9, 6, 3)`. -/
def pixel963Image : Image :=
  { width := 1, height := 1, pix := fun _ _ => { r := 9, g := 6, b := 3 } }

/-- A 1×1 image holding pixel (0, 3, 9), where the program's float
arithmetic departs from the exact weighted formula. -/
def pixel039Image : Image :=
  { width := 1, height := 1, pix := fun _ _ => { r := 0, g := 3, b := 9 } }

/-- A 1×1 mid-gray image whose grayscale value is exactly 128, the spec's
threshold boundary scenario. -/
def pixel128Image : Image :=
  { width := 1, height := 1, pix := fun _ _ => { r := 128, g := 128, b := 128 } }

/-- The spec's idealized weighted gray, in exact arithmetic, is the floor
division `(3*r + 7*g + b) / 10`. -/
theorem specWeightedGray_eq (r g b : Nat) :
    specWeightedGray r g b = (3 * r + 7 * g + b) / 10 := by
  have h : 0.3 * (r : ℚ) + 0.7 * (g : ℚ) + 0.1 * (b : ℚ)
      = ((3 * r + 7 * g + b : ℤ) : ℚ) / ((10 : ℕ) : ℚ) := by
    push_cast
    ring_nf
  unfold specWeightedGray
  rw [h, Rat.floor_intCast_div_natCast]
  omega

/-- `float03` is within half an ulp (2^-55 at this magnitude) of 3/10, as
the nearest binary64 double must be. -/
theorem float03_half_ulp :
    3 / 10 - 1 / 2 ^ 55 ≤ ((float03.1 : ℚ) / 2 ^ float03.2) ∧
    ((float03.1 : ℚ) / 2 ^ float03.2) ≤ 3 / 10 + 1 / 2 ^ 55 := by
  unfold float03
  constructor <;> norm_num

/-- `float07` is within half an ulp (2^-53 at this magnitude) of 7/10. -/
theorem float07_half_ulp :
    7 / 10 - 1 / 2 ^ 53 ≤ ((float07.1 : ℚ) / 2 ^ float07.2) ∧
    ((float07.1 : ℚ) / 2 ^ float07.2) ≤ 7 / 10 + 1 / 2 ^ 53 := by
  unfold float07
  constructor <;> norm_num

/-- `float01` is within half an ulp (2^-56 at this magnitude) of 1/10. -/
theorem float01_half_ulp :
    1 / 10 - 1 / 2 ^ 56 ≤ ((float01.1 : ℚ) / 2 ^ float01.2) ∧
    ((float01.1 : ℚ) / 2 ^ float01.2) ≤ 1 / 10 + 1 / 2 ^ 56 := by
  unfold float01
  constructor <;> norm_num

/-- The store-side clamp never exceeds 255. -/
theorem clip8_le (v : Int) : clip8 v ≤ 255 := by
  unfold clip8
  omega

/-- Storing a natural number clamps it to `min 255`. -/
theorem clip8_natCast (n : Nat) : clip8 (n : Int) = min 255 n := by
  unfold clip8
  omega

/-- Storing a natural number already in `[0, 255]` is the identity. -/
theorem clip8_of_le (n : Nat) (h : n ≤ 255) : clip8 (n : Int) = n := by
  unfold clip8
  omega

/-- A fold that adds `f` over `range' a n` is the sum of `f` over `[a, a+n)`. -/
theorem foldl_add_eq_sum (f : Nat → Nat) :
    ∀ n a acc, (List.range' a n).foldl (fun s i => s + f i) acc
      = acc + ∑ i ∈ Finset.Ico a (a + n), f i := by
  intro n
  induction n with
  | zero => intro a acc; simp
  | succ n ih =>
    intro a acc
    rw [List.range'_succ, List.foldl_cons, ih (a + 1) (acc + f a),
      Finset.sum_eq_sum_Ico_succ_bot (by omega : a < a + (n + 1))]
    have h : a + 1 + n = a + (n + 1) := by omega
    rw [h]
    omega

/-- The nested fold of `mosaic_filter`'s channel accumulation is the double
sum over the block's index rectangle. -/
theorem foldl_nested_eq_sum (f : Nat → Nat → Nat) (c m : Nat) :
    ∀ n a acc, (List.range' a n).foldl
        (fun s v => (List.range' c m).foldl (fun t u => t + f u v) s) acc
      = acc + ∑ v ∈ Finset.Ico a (a + n), ∑ u ∈ Finset.Ico c (c + m), f u v := by
  intro n
  induction n with
  | zero => intro a acc; simp
  | succ n ih =>
    intro a acc
    rw [List.range'_succ, List.foldl_cons, foldl_add_eq_sum (fun u => f u a) m c acc,
      ih (a + 1) _, Finset.sum_eq_sum_Ico_succ_bot (by omega : a < a + (n + 1))]
    have h : a + 1 + n = a + (n + 1) := by omega
    rw [h]
    omega

/-- The nested fold of `mosaic_filter`'s pixel count is the block's area. -/
theorem foldl_nested_count (c m : Nat) :
    ∀ n a acc, (List.range' a n).foldl
        (fun s _ => (List.range' c m).foldl (fun t _ => t + 1) s) acc
      = acc + m * n := by
  intro n
  induction n with
  | zero => intro a acc; simp
  | succ n ih =>
    intro a acc
    rw [List.range'_succ, List.foldl_cons]
    have hinner : ∀ acc2, (List.range' c m).foldl (fun t _ => t + 1) acc2 = acc2 + m := by
      intro acc2
      have := foldl_add_eq_sum (fun _ => 1) m c acc2
      simpa using this
    rw [hinner, ih (a + 1) (acc + m)]
    ring

/-- Claim C5: for every filter among mosaic, grayscale, high_contrast,
negative, channel_isolate and brightness, and every image (with any
parameters), the output image has exactly the input's width and height; no
filter resizes. -/
theorem filters_preserve_dimensions (I : Image) (block_size : Nat) (method : String)
    (threshold : Nat) (channel : String) (delta : Int) :
    ((mosaic_filter I block_size).width = I.width ∧
      (mosaic_filter I block_size).height = I.height) ∧
    ((grayscale_filter I method).width = I.width ∧
      (grayscale_filter I method).height = I.height) ∧
    ((high_contrast_filter I method threshold).width = I.width ∧
      (high_contrast_filter I method threshold).height = I.height) ∧
    ((negative_filter I).width = I.width ∧
      (negative_filter I).height = I.height) ∧
    ((rgb_filter_channel_only I channel).width = I.width ∧
      (rgb_filter_channel_only I channel).height = I.height) ∧
    ((brightness_filter I delta).width = I.width ∧
      (brightness_filter I delta).height = I.height) :=
  ⟨⟨rfl, rfl⟩, ⟨rfl, rfl⟩, ⟨rfl, rfl⟩, ⟨rfl, rfl⟩, ⟨rfl, rfl⟩, ⟨rfl, rfl⟩⟩

/-- Claim C4: every one of the six filters produces an output image all of
whose pixel components are integers in [0, 255] — for any input image and
any parameters, hence in particular for in-range inputs and validated
parameters, and in particular for the weighted grayscale, whose computed
gray value (which can reach 280) is clamped by the PIL store. -/
theorem filters_preserve_range (I : Image) (block_size : Nat) (method : String)
    (threshold : Nat) (channel : String) (delta : Int) :
    (mosaic_filter I block_size).InRange ∧
    (grayscale_filter I method).InRange ∧
    (high_contrast_filter I method threshold).InRange ∧
    (negative_filter I).InRange ∧
    (rgb_filter_channel_only I channel).InRange ∧
    (brightness_filter I delta).InRange := by
  refine ⟨?_, ?_, ?_, ?_, ?_, ?_⟩ <;> intro x hx y hy
  · exact ⟨clip8_le _, clip8_le _, clip8_le _⟩
  · exact ⟨clip8_le _, clip8_le _, clip8_le _⟩
  · simp only [high_contrast_filter]
    split
    · exact ⟨by decide, by decide, by decide⟩
    · exact ⟨by decide, by decide, by decide⟩
  · exact ⟨clip8_le _, clip8_le _, clip8_le _⟩
  · exact ⟨clip8_le _, clip8_le _, clip8_le _⟩
  · exact ⟨clip8_le _, clip8_le _, clip8_le _⟩

/-- Claim C2: high_contrast equals grayscale followed by thresholding the
(equal) channel value with strict less-than — gray < threshold gives black,
gray ≥ threshold gives white; every output pixel is exactly black or white;
a gray value exactly equal to the threshold becomes white. -/
theorem high_contrast_spec (I : Image) (method : String) (threshold : Nat) (x y : Nat) :
    ((high_contrast_filter I method threshold).pix x y
        = if ((grayscale_filter I method).pix x y).r < threshold
            then { r := 0, g := 0, b := 0 } else { r := 255, g := 255, b := 255 }) ∧
    ((high_contrast_filter I method threshold).pix x y = { r := 0, g := 0, b := 0 } ∨
      (high_contrast_filter I method threshold).pix x y = { r := 255, g := 255, b := 255 }) ∧
    (((grayscale_filter I method).pix x y).r = threshold →
      (high_contrast_filter I method threshold).pix x y = { r := 255, g := 255, b := 255 }) := by
  refine ⟨rfl, ?_, ?_⟩
  · simp only [high_contrast_filter]
    split
    · exact Or.inl rfl
    · exact Or.inr rfl
  · intro h
    simp only [high_contrast_filter]
    rw [if_neg (by omega)]

/-- Witness for C2: with threshold 128 on the 1×1 image whose grayscale
value is exactly 128, the composition/binary/boundary facts hold and the
output pixel is white. -/
theorem high_contrast_spec_witness :
    (((high_contrast_filter pixel128Image "average" 128).pix 0 0
        = if ((grayscale_filter pixel128Image "average").pix 0 0).r < 128
            then { r := 0, g := 0, b := 0 } else { r := 255, g := 255, b := 255 }) ∧
      ((high_contrast_filter pixel128Image "average" 128).pix 0 0 = { r := 0, g := 0, b := 0 } ∨
        (high_contrast_filter pixel128Image "average" 128).pix 0 0
          = { r := 255, g := 255, b := 255 }) ∧
      (((grayscale_filter pixel128Image "average").pix 0 0).r = 128 →
        (high_contrast_filter pixel128Image "average" 128).pix 0 0
          = { r := 255, g := 255, b := 255 })) ∧
    (high_contrast_filter pixel128Image "average" 128).pix 0 0 = { r := 255, g := 255, b := 255 } :=
  ⟨high_contrast_spec pixel128Image "average" 128 0 0, by decide⟩

/-- Claim C6: negative maps every (in-range) pixel (r, g, b) to
(255-r, 255-g, 255-b), and applying negative twice reproduces the original
image exactly. -/
theorem negative_spec (I : Image) (hIn : I.InRange) :
    (∀ x, x < I.width → ∀ y, y < I.height →
      (negative_filter I).pix x y
        = { r := 255 - (I.pix x y).r, g := 255 - (I.pix x y).g, b := 255 - (I.pix x y).b }) ∧
    Image.eqOn (negative_filter (negative_filter I)) I := by
  constructor
  · intro x hx y hy
    obtain ⟨hr, hg, hb⟩ := hIn x hx y hy
    simp only [negative_filter]
    ext <;> simp only [clip8] <;> omega
  · refine ⟨rfl, rfl, ?_⟩
    intro x hx y hy
    obtain ⟨hr, hg, hb⟩ := hIn x hx y hy
    simp only [negative_filter]
    ext <;> simp only [clip8] <;> omega

/-- Witness for C6 on the concrete 2×2 test image. -/
theorem negative_spec_witness :
    testImage2x2.InRange ∧
    ((∀ x, x < testImage2x2.width → ∀ y, y < testImage2x2.height →
      (negative_filter testImage2x2).pix x y
        = { r := 255 - (testImage2x2.pix x y).r, g := 255 - (testImage2x2.pix x y).g,
            b := 255 - (testImage2x2.pix x y).b }) ∧
      Image.eqOn (negative_filter (negative_filter testImage2x2)) testImage2x2) :=
  ⟨by decide, negative_spec testImage2x2 (by decide)⟩

/-- Claim C7: brightness adds delta to every channel and saturates into
[0, 255] (clamping, not wrapping), and brightness with delta 0 reproduces
the (in-range) input exactly. -/
theorem brightness_spec (I : Image) (delta : Int) (hd1 : -255 ≤ delta) (hd2 : delta ≤ 255)
    (hIn : I.InRange) :
    (∀ x y, (brightness_filter I delta).pix x y
        = { r := clip8 ((I.pix x y).r + delta), g := clip8 ((I.pix x y).g + delta),
            b := clip8 ((I.pix x y).b + delta) }) ∧
    Image.eqOn (brightness_filter I 0) I := by
  constructor
  · intro x y
    simp only [brightness_filter]
    ext <;> simp only [clip8] <;> omega
  · refine ⟨rfl, rfl, ?_⟩
    intro x hx y hy
    obtain ⟨hr, hg, hb⟩ := hIn x hx y hy
    simp only [brightness_filter]
    ext <;> simp only [clip8] <;> omega

/-- Witness for C7 on the concrete 2×2 test image with delta 100. -/
theorem brightness_spec_witness :
    (-255 ≤ (100 : Int) ∧ (100 : Int) ≤ 255 ∧ testImage2x2.InRange) ∧
    ((∀ x y, (brightness_filter testImage2x2 100).pix x y
        = { r := clip8 ((testImage2x2.pix x y).r + 100),
            g := clip8 ((testImage2x2.pix x y).g + 100),
            b := clip8 ((testImage2x2.pix x y).b + 100) }) ∧
      Image.eqOn (brightness_filter testImage2x2 0) testImage2x2) :=
  ⟨⟨by decide, by decide, by decide⟩,
    brightness_spec testImage2x2 100 (by decide) (by decide) (by decide)⟩

/-- Claim C8: channel_isolate keeps the named channel and zeroes the other
two — red gives (r,0,0), green gives (0,g,0), blue gives (0,0,b); in
particular for red every output pixel has green = 0, blue = 0 and red equal
to the source pixel's red. -/
theorem channel_isolate_spec (I : Image) (hIn : I.InRange) (x y : Nat)
    (hx : x < I.width) (hy : y < I.height) :
    (rgb_filter_channel_only I "red").pix x y = { r := (I.pix x y).r, g := 0, b := 0 } ∧
    (rgb_filter_channel_only I "green").pix x y = { r := 0, g := (I.pix x y).g, b := 0 } ∧
    (rgb_filter_channel_only I "blue").pix x y = { r := 0, g := 0, b := (I.pix x y).b } ∧
    ((rgb_filter_channel_only I "red").pix x y).g = 0 ∧
    ((rgb_filter_channel_only I "red").pix x y).b = 0 ∧
    ((rgb_filter_channel_only I "red").pix x y).r = (I.pix x y).r := by
  obtain ⟨hr, hg, hb⟩ := hIn x hx y hy
  have hred : (rgb_filter_channel_only I "red").pix x y
      = { r := (I.pix x y).r, g := 0, b := 0 } := by
    simp only [rgb_filter_channel_only]
    simp only [if_true]
    ext <;> simp only [clip8] <;> omega
  have hgreen : (rgb_filter_channel_only I "green").pix x y
      = { r := 0, g := (I.pix x y).g, b := 0 } := by
    simp only [rgb_filter_channel_only]
    rw [if_neg (by decide : ¬("green" : String) = "red"), if_pos trivial]
    ext <;> simp only [clip8] <;> omega
  have hblue : (rgb_filter_channel_only I "blue").pix x y
      = { r := 0, g := 0, b := (I.pix x y).b } := by
    simp only [rgb_filter_channel_only]
    rw [if_neg (by decide : ¬("blue" : String) = "red"),
      if_neg (by decide : ¬("blue" : String) = "green"), if_pos trivial]
    ext <;> simp only [clip8] <;> omega
  exact ⟨hred, hgreen, hblue, by rw [hred], by rw [hred], by rw [hred]⟩

/-- Witness for C8 on the concrete 2×2 test image at pixel (1, 0). -/
theorem channel_isolate_spec_witness :
    (testImage2x2.InRange ∧ 1 < testImage2x2.width ∧ 0 < testImage2x2.height) ∧
    ((rgb_filter_channel_only testImage2x2 "red").pix 1 0
        = { r := (testImage2x2.pix 1 0).r, g := 0, b := 0 } ∧
      (rgb_filter_channel_only testImage2x2 "green").pix 1 0
        = { r := 0, g := (testImage2x2.pix 1 0).g, b := 0 } ∧
      (rgb_filter_channel_only testImage2x2 "blue").pix 1 0
        = { r := 0, g := 0, b := (testImage2x2.pix 1 0).b } ∧
      ((rgb_filter_channel_only testImage2x2 "red").pix 1 0).g = 0 ∧
      ((rgb_filter_channel_only testImage2x2 "red").pix 1 0).b = 0 ∧
      ((rgb_filter_channel_only testImage2x2 "red").pix 1 0).r = (testImage2x2.pix 1 0).r) :=
  ⟨⟨by decide, by decide, by decide⟩,
    channel_isolate_spec testImage2x2 (by decide) 1 0 (by decide) (by decide)⟩

/-- Counterexample for Claim C9: the grayscale filter does accept a method
identifier outside {average, weighted} — on the unrecognized identifier
"banana" it computes a result, namely the weighted one (pixel (10,20,30)
maps to gray 20). -/
theorem grayscale_accepts_any_method_cex :
    (grayscale_filter testImage2x2 "banana").pix 0 0
        = (grayscale_filter testImage2x2 "weighted").pix 0 0 ∧
    (grayscale_filter testImage2x2 "banana").pix 0 0 = { r := 20, g := 20, b := 20 } := by
  constructor <;> decide

/-- Claim C9 (amended): the grayscale filter's dispatch distinguishes only
the identifier "average"; every other method value — "weighted" and any
unrecognized identifier alike — is accepted and computes the weighted
formula, so restricting the method to the two enumerated values is the
caller's duty, not enforced by the filter. -/
theorem grayscale_nonaverage_weighted (I : Image) (m : String) (h : m ≠ "average") :
    grayscale_filter I m = grayscale_filter I "weighted" := by
  unfold grayscale_filter
  simp only [if_neg h, if_neg (by decide : ¬("weighted" : String) = "average")]

/-- Witness for C9's amended claim at the concrete identifier "banana". -/
theorem grayscale_nonaverage_weighted_witness :
    ("banana" : String) ≠ "average" ∧
    grayscale_filter testImage2x2 "banana" = grayscale_filter testImage2x2 "weighted" :=
  ⟨by decide, grayscale_nonaverage_weighted testImage2x2 "banana" (by decide)⟩

/-- Claim C10: the method dispatch is a two-way branch on equality with
"average": any method other than the exact string "average" is never
rejected and computes every pixel with the weighted formula (through the
clamping PIL store), so any two non-"average" methods give equal outputs. -/
theorem grayscale_dispatch_spec (I : Image) (m1 m2 : String)
    (h1 : m1 ≠ "average") (h2 : m2 ≠ "average") :
    grayscale_filter I m1 = grayscale_filter I m2 ∧
    ∀ x y, (grayscale_filter I m1).pix x y
        = { r := clip8 ((weightedGray (I.pix x y).r (I.pix x y).g (I.pix x y).b : Nat) : Int),
            g := clip8 ((weightedGray (I.pix x y).r (I.pix x y).g (I.pix x y).b : Nat) : Int),
            b := clip8 ((weightedGray (I.pix x y).r (I.pix x y).g (I.pix x y).b : Nat) : Int) } := by
  constructor
  · unfold grayscale_filter
    simp only [if_neg h1, if_neg h2]
  · intro x y
    simp only [grayscale_filter, if_neg h1]

/-- Witness for C10 at the concrete identifiers "foo" and "bar". -/
theorem grayscale_dispatch_spec_witness :
    (("foo" : String) ≠ "average" ∧ ("bar" : String) ≠ "average") ∧
    (grayscale_filter testImage2x2 "foo" = grayscale_filter testImage2x2 "bar" ∧
      ∀ x y, (grayscale_filter testImage2x2 "foo").pix x y
        = { r := clip8 ((weightedGray (testImage2x2.pix x y).r (testImage2x2.pix x y).g
              (testImage2x2.pix x y).b : Nat) : Int),
            g := clip8 ((weightedGray (testImage2x2.pix x y).r (testImage2x2.pix x y).g
              (testImage2x2.pix x y).b : Nat) : Int),
            b := clip8 ((weightedGray (testImage2x2.pix x y).r (testImage2x2.pix x y).g
              (testImage2x2.pix x y).b : Nat) : Int) }) :=
  ⟨⟨by decide, by decide⟩,
    grayscale_dispatch_spec testImage2x2 "foo" "bar" (by decide) (by decide)⟩

/-- Counterexample for Claim C3: the weighted branch does not produce the
exact floor(0.3r + 0.7g + 0.1b).  At pixel (0,3,9) that exact value is 3.0,
floor 3, but the program's float arithmetic evaluates to
2.9999999999999996, so int gives gray 2; and at the all-white pixel the
exact floor 280 exceeds 255, the float computation also truncates to 280,
and the PIL store clamps the output to (255,255,255). -/
theorem grayscale_weighted_formula_cex :
    specWeightedGray 0 3 9 = 3 ∧
    (grayscale_filter pixel039Image "weighted").pix 0 0 = { r := 2, g := 2, b := 2 } ∧
    (grayscale_filter pixel039Image "weighted").pix 0 0 ≠ { r := 3, g := 3, b := 3 } ∧
    specWeightedGray 255 255 255 = 280 ∧
    weightedGray 255 255 255 = 280 ∧
    (grayscale_filter whiteImage "weighted").pix 0 0 ≠ { r := 280, g := 280, b := 280 } ∧
    (grayscale_filter whiteImage "weighted").pix 0 0 = { r := 255, g := 255, b := 255 } :=
  ⟨by simp [specWeightedGray_eq], by decide, by decide, by simp [specWeightedGray_eq],
    by decide, by decide, by decide⟩

/-- Claim C3 (amended): grayscale "average" produces gray =
floor((r+g+b)/3) by integer division; grayscale "weighted" produces gray =
min 255 of the IEEE-754 binary64 evaluation of int(0.3r + 0.7g + 0.1b)
(truncation toward zero of the non-negative float result, i.e. its floor),
clamped at 255 by the PIL store.  The float value deviates from the exact
floor(0.3r + 0.7g + 0.1b) at some pixels (e.g. (0,3,9): 2 versus 3), and
the clamp binds when the value exceeds 255 (it reaches 280 at white). -/
theorem grayscale_formula_spec (I : Image) (hIn : I.InRange) (x y : Nat)
    (hx : x < I.width) (hy : y < I.height) :
    (grayscale_filter I "average").pix x y
        = { r := ((I.pix x y).r + (I.pix x y).g + (I.pix x y).b) / 3,
            g := ((I.pix x y).r + (I.pix x y).g + (I.pix x y).b) / 3,
            b := ((I.pix x y).r + (I.pix x y).g + (I.pix x y).b) / 3 } ∧
    (grayscale_filter I "weighted").pix x y
        = { r := min 255 (weightedGray (I.pix x y).r (I.pix x y).g (I.pix x y).b),
            g := min 255 (weightedGray (I.pix x y).r (I.pix x y).g (I.pix x y).b),
            b := min 255 (weightedGray (I.pix x y).r (I.pix x y).g (I.pix x y).b) } := by
  obtain ⟨hr, hg, hb⟩ := hIn x hx y hy
  constructor
  · have hdiv : ((I.pix x y).r + (I.pix x y).g + (I.pix x y).b) / 3 ≤ 255 := by omega
    simp only [grayscale_filter]
    split
    · ext <;> exact clip8_of_le _ hdiv
    · next h => exact absurd trivial h
  · simp only [grayscale_filter]
    split
    · next h => exact absurd h (by decide)
    · ext <;> exact clip8_natCast _

/-- Witness for C3's amended claim: on the 1×1 image with pixel (9,6,3) the
average branch yields (6,6,6) and the weighted branch yields (7,7,7), with
weightedGray 9 6 3 = 7 (so the clamp does not bind there). -/
theorem grayscale_formula_spec_witness :
    (pixel963Image.InRange ∧ 0 < pixel963Image.width ∧ 0 < pixel963Image.height) ∧
    ((grayscale_filter pixel963Image "average").pix 0 0
        = { r := ((pixel963Image.pix 0 0).r + (pixel963Image.pix 0 0).g
              + (pixel963Image.pix 0 0).b) / 3,
            g := ((pixel963Image.pix 0 0).r + (pixel963Image.pix 0 0).g
              + (pixel963Image.pix 0 0).b) / 3,
            b := ((pixel963Image.pix 0 0).r + (pixel963Image.pix 0 0).g
              + (pixel963Image.pix 0 0).b) / 3 } ∧
      (grayscale_filter pixel963Image "weighted").pix 0 0
        = { r := min 255 (weightedGray (pixel963Image.pix 0 0).r (pixel963Image.pix 0 0).g
              (pixel963Image.pix 0 0).b),
            g := min 255 (weightedGray (pixel963Image.pix 0 0).r (pixel963Image.pix 0 0).g
              (pixel963Image.pix 0 0).b),
            b := min 255 (weightedGray (pixel963Image.pix 0 0).r (pixel963Image.pix 0 0).g
              (pixel963Image.pix 0 0).b) }) ∧
    weightedGray 9 6 3 = 7 ∧
    (grayscale_filter pixel963Image "average").pix 0 0 = { r := 6, g := 6, b := 6 } ∧
    (grayscale_filter pixel963Image "weighted").pix 0 0 = { r := 7, g := 7, b := 7 } :=
  ⟨⟨by decide, by decide, by decide⟩,
    grayscale_formula_spec pixel963Image (by decide) 0 0 (by decide) (by decide),
    by decide,
    by decide,
    by decide⟩

/-- Counterexample for Claim C1: on the spec's own 2×2 scenario image with
block_size 2 the output pixels are (116, 93, 83), not (116, 93, 20) — the
blue sum is 30 + 50 + 0 + 255 = 335, whose floor average is 83. -/
theorem mosaic_concrete_scenario_cex :
    (mosaic_filter testImage2x2 2).pix 0 0 ≠ { r := 116, g := 93, b := 20 } ∧
    (mosaic_filter testImage2x2 2).pix 0 0 = { r := 116, g := 93, b := 83 } := by
  constructor <;> decide

/-- Claim C1 (amended): mosaic partitions the image into non-overlapping
block_size × block_size blocks starting at (0,0), truncated at the image
boundary, and writes to every pixel of a block the triple of floor-averages
of the block's channel sums — the block containing (x, y) spans columns
[bs*(x/bs), min(bs*(x/bs)+bs, width)) and rows
[bs*(y/bs), min(bs*(y/bs)+bs, height)); on the spec's 2×2 scenario the four
output pixels are all (116, 93, 83). -/
theorem mosaic_block_average (I : Image) (block_size : Nat)
    (hbs1 : 1 ≤ block_size) (hbs2 : block_size ≤ 100) (hIn : I.InRange)
    (x y : Nat) (hx : x < I.width) (hy : y < I.height) :
    (mosaic_filter I block_size).pix x y
      = { r := (∑ v ∈ Finset.Ico (block_size * (y / block_size))
                  (min (block_size * (y / block_size) + block_size) I.height),
                ∑ u ∈ Finset.Ico (block_size * (x / block_size))
                  (min (block_size * (x / block_size) + block_size) I.width),
                (I.pix u v).r)
              / ((min (block_size * (x / block_size) + block_size) I.width
                    - block_size * (x / block_size))
                  * (min (block_size * (y / block_size) + block_size) I.height
                    - block_size * (y / block_size))),
          g := (∑ v ∈ Finset.Ico (block_size * (y / block_size))
                  (min (block_size * (y / block_size) + block_size) I.height),
                ∑ u ∈ Finset.Ico (block_size * (x / block_size))
                  (min (block_size * (x / block_size) + block_size) I.width),
                (I.pix u v).g)
              / ((min (block_size * (x / block_size) + block_size) I.width
                    - block_size * (x / block_size))
                  * (min (block_size * (y / block_size) + block_size) I.height
                    - block_size * (y / block_size))),
          b := (∑ v ∈ Finset.Ico (block_size * (y / block_size))
                  (min (block_size * (y / block_size) + block_size) I.height),
                ∑ u ∈ Finset.Ico (block_size * (x / block_size))
                  (min (block_size * (x / block_size) + block_size) I.width),
                (I.pix u v).b)
              / ((min (block_size * (x / block_size) + block_size) I.width
                    - block_size * (x / block_size))
                  * (min (block_size * (y / block_size) + block_size) I.height
                    - block_size * (y / block_size))) } := by
  simp only [mosaic_filter]
  set x0 := block_size * (x / block_size) with hx0def
  set y0 := block_size * (y / block_size) with hy0def
  set x1 := min (x0 + block_size) I.width with hx1def
  set y1 := min (y0 + block_size) I.height with hy1def
  have hxmod := Nat.mod_add_div x block_size
  have hymod := Nat.mod_add_div y block_size
  have hxmlt : x % block_size < block_size := Nat.mod_lt _ (by omega)
  have hymlt : y % block_size < block_size := Nat.mod_lt _ (by omega)
  have hx01 : x0 < x1 := by
    rw [hx1def]
    omega
  have hy01 : y0 < y1 := by
    rw [hy1def]
    omega
  have hx1w : x1 ≤ I.width := min_le_right _ _
  have hy1h : y1 ≤ I.height := min_le_right _ _
  have hxspan : x0 + (x1 - x0) = x1 := by omega
  have hyspan : y0 + (y1 - y0) = y1 := by omega
  rw [foldl_nested_eq_sum (fun u v => (I.pix u v).r) x0 (x1 - x0) (y1 - y0) y0 0,
    foldl_nested_eq_sum (fun u v => (I.pix u v).g) x0 (x1 - x0) (y1 - y0) y0 0,
    foldl_nested_eq_sum (fun u v => (I.pix u v).b) x0 (x1 - x0) (y1 - y0) y0 0,
    foldl_nested_count x0 (x1 - x0) (y1 - y0) y0 0, hxspan, hyspan]
  simp only [Nat.zero_add]
  have hcount : 0 < (x1 - x0) * (y1 - y0) := by
    have : 0 < x1 - x0 := by omega
    have : 0 < y1 - y0 := by omega
    positivity
  have hbound : ∀ f : Nat → Nat → Nat, (∀ u v, u < I.width → v < I.height → f u v ≤ 255) →
      (∑ v ∈ Finset.Ico y0 y1, ∑ u ∈ Finset.Ico x0 x1, f u v)
        ≤ ((x1 - x0) * (y1 - y0)) * 255 := by
    intro f hf
    calc (∑ v ∈ Finset.Ico y0 y1, ∑ u ∈ Finset.Ico x0 x1, f u v)
        ≤ ∑ _v ∈ Finset.Ico y0 y1, (x1 - x0) * 255 := by
          refine Finset.sum_le_sum ?_
          intro v hv
          rw [Finset.mem_Ico] at hv
          calc (∑ u ∈ Finset.Ico x0 x1, f u v)
              ≤ ∑ _u ∈ Finset.Ico x0 x1, 255 := by
                refine Finset.sum_le_sum ?_
                intro u hu
                rw [Finset.mem_Ico] at hu
                exact hf u v (by omega) (by omega)
            _ = (x1 - x0) * 255 := by
                rw [Finset.sum_const, Nat.card_Ico, smul_eq_mul]
      _ = (y1 - y0) * ((x1 - x0) * 255) := by
          rw [Finset.sum_const, Nat.card_Ico, smul_eq_mul]
      _ = ((x1 - x0) * (y1 - y0)) * 255 := by ring
  have hr255 := hbound (fun u v => (I.pix u v).r) (fun u v hu hv => (hIn u hu v hv).1)
  have hg255 := hbound (fun u v => (I.pix u v).g) (fun u v hu hv => (hIn u hu v hv).2.1)
  have hb255 := hbound (fun u v => (I.pix u v).b) (fun u v hu hv => (hIn u hu v hv).2.2)
  have hrdiv := Nat.div_le_of_le_mul hr255
  have hgdiv := Nat.div_le_of_le_mul hg255
  have hbdiv := Nat.div_le_of_le_mul hb255
  rw [clip8_of_le _ hrdiv, clip8_of_le _ hgdiv, clip8_of_le _ hbdiv]

/-- Witness for C1's amended claim: the theorem instantiated on the spec's
2×2 scenario image with block_size 2, plus the corrected concrete output:
all four pixels equal (116, 93, 83). -/
theorem mosaic_block_average_witness :
    (1 ≤ 2 ∧ 2 ≤ 100 ∧ testImage2x2.InRange ∧ 0 < testImage2x2.width ∧ 0 < testImage2x2.height) ∧
    (mosaic_filter testImage2x2 2).pix 0 0
      = { r := (∑ v ∈ Finset.Ico (2 * (0 / 2)) (min (2 * (0 / 2) + 2) testImage2x2.height),
                ∑ u ∈ Finset.Ico (2 * (0 / 2)) (min (2 * (0 / 2) + 2) testImage2x2.width),
                (testImage2x2.pix u v).r)
              / ((min (2 * (0 / 2) + 2) testImage2x2.width - 2 * (0 / 2))
                  * (min (2 * (0 / 2) + 2) testImage2x2.height - 2 * (0 / 2))),
          g := (∑ v ∈ Finset.Ico (2 * (0 / 2)) (min (2 * (0 / 2) + 2) testImage2x2.height),
                ∑ u ∈ Finset.Ico (2 * (0 / 2)) (min (2 * (0 / 2) + 2) testImage2x2.width),
                (testImage2x2.pix u v).g)
              / ((min (2 * (0 / 2) + 2) testImage2x2.width - 2 * (0 / 2))
                  * (min (2 * (0 / 2) + 2) testImage2x2.height - 2 * (0 / 2))),
          b := (∑ v ∈ Finset.Ico (2 * (0 / 2)) (min (2 * (0 / 2) + 2) testImage2x2.height),
                ∑ u ∈ Finset.Ico (2 * (0 / 2)) (min (2 * (0 / 2) + 2) testImage2x2.width),
                (testImage2x2.pix u v).b)
              / ((min (2 * (0 / 2) + 2) testImage2x2.width - 2 * (0 / 2))
                  * (min (2 * (0 / 2) + 2) testImage2x2.height - 2 * (0 / 2))) } ∧
    ((mosaic_filter testImage2x2 2).pix 0 0 = { r := 116, g := 93, b := 83 } ∧
      (mosaic_filter testImage2x2 2).pix 1 0 = { r := 116, g := 93, b := 83 } ∧
      (mosaic_filter testImage2x2 2).pix 0 1 = { r := 116, g := 93, b := 83 } ∧
      (mosaic_filter testImage2x2 2).pix 1 1 = { r := 116, g := 93, b := 83 }) :=
  ⟨⟨by decide, by decide, by decide, by decide, by decide⟩,
    mosaic_block_average testImage2x2 2 (by decide) (by decide) (by decide) 0 0
      (by decide) (by decide),
    by decide, by decide, by decide, by decide⟩

end Tarea1
